import Mathlib

set_option maxHeartbeats 1000000
set_option maxRecDepth 4000

/-! # Verification of the HostelFit meal-tracking application (src/app.py)

The Python source is shallowly embedded.  Python strings are modelled as
`List Char`; `str.replace` / `str.strip` as explicit fueled recursions;
the JSON values exchanged with the model as a mutual inductive `Json`;
`json.loads` as a fueled recursive-descent parser for the JSON fragment the
application actually exchanges (objects, arrays, escape-free strings,
integers, `true`/`false`/`null`, no inter-token whitespace — the canonical
texts the claims quantify over); and the Streamlit session state as an
explicit record threaded through the button handlers.  Network calls
(`model.generate_content`, the DDGS search) are modelled as oracles passed
in as function arguments, so that the handlers stay pure and the number of
calls made is observable. -/

/-! ## Python string primitives -/

/-- The six ASCII characters removed by Python's `str.strip()` with no
argument (the whitespace characters that can occur in model output). -/
def isPySpace (c : Char) : Bool :=
  c == ' ' || c == '\t' || c == '\n' || c == '\r' || c == '\x0b' || c == '\x0c'

/-- Python's substring test `pat in s` on character lists. -/
def substrOccurs : List Char → List Char → Bool
  | [], pat => pat.isEmpty
  | c :: t, pat => pat.isPrefixOf (c :: t) || substrOccurs t pat

/-- One fueled step of Python's `str.replace(pat, "")`: scan left to right,
removing each non-overlapping occurrence of `pat`.  The fuel only bounds the
recursion; `listReplace` supplies enough fuel for the whole input. -/
def listReplaceAux (pat : List Char) : Nat → List Char → List Char
  | 0, s => s
  | fuel + 1, s =>
    match s with
    | [] => []
    | c :: t =>
      if pat.isPrefixOf (c :: t) && !pat.isEmpty then
        listReplaceAux pat fuel ((c :: t).drop pat.length)
      else
        c :: listReplaceAux pat fuel t

/-- Python's `s.replace(pat, "")` (removal of every occurrence of `pat`). -/
def listReplace (pat s : List Char) : List Char :=
  listReplaceAux pat s.length s

/-- Python's `s.strip()`: drop whitespace from both ends. -/
def py_strip (s : List Char) : List Char :=
  ((s.dropWhile isPySpace).reverse.dropWhile isPySpace).reverse

/-- The fence marker `"```json"` removed first at app.py line 84. -/
def fence_json : List Char := "```json".toList

/-- The fence marker `"```"` removed second at app.py line 84. -/
def fence_tick : List Char := "```".toList

/-- app.py line 84: `raw_text.replace("```json", "").replace("```", "").strip()`. -/
def clean_json (raw : List Char) : List Char :=
  py_strip (listReplace fence_tick (listReplace fence_json raw))

/-! ## Target calculator (app.py lines 128-145) -/

/-- Menu entry 1 of the goal selectbox (app.py line 131). -/
def menu_lean_bulk : List Char := "Lean Bulk (Minimizing Fat)".toList

/-- Menu entry 2 of the goal selectbox (app.py line 132). -/
def menu_dirty_bulk : List Char := "Dirty Bulk (Max Size/Strength)".toList

/-- Menu entry 3 of the goal selectbox (app.py line 133). -/
def menu_maintenance : List Char := "Maintenance (Recomp)".toList

/-- Menu entry 4 of the goal selectbox (app.py line 134). -/
def menu_cut : List Char := "Aggressive Cut (Fast Fat Loss)".toList

/-- Substring dispatched on at app.py line 137 (`"Bulk" in goal_type`). -/
def pat_bulk : List Char := "Bulk".toList

/-- Substring dispatched on at app.py line 140 (`"Cut" in goal_type`). -/
def pat_cut : List Char := "Cut".toList

/-- app.py lines 137-145.  The slider weight is an integer (40-120); the
float products `weight * 2.0`, `weight * 2.4`, `weight * 1.8` are exact
enough on that range that `int(...)` agrees with the exact rational floor,
modelled here as natural division of the 10-scaled product. -/
def calc_targets (weight : Nat) (goal : List Char) : Nat × Nat :=
  if substrOccurs goal pat_bulk then (weight * 20 / 10, weight * 35)
  else if substrOccurs goal pat_cut then (weight * 24 / 10, weight * 24)
  else (weight * 18 / 10, weight * 30)

/-- The spec's description of the target calculator: protein is
`int(weight * multiplier)` (multiplier given scaled by 10) and calories are
`weight * calorie multiplier`. -/
def spec_target (weight protMult10 calMult : Nat) : Nat × Nat :=
  (weight * protMult10 / 10, weight * calMult)

/-! ## JSON values

`Json` covers the fragment of JSON that the application's schema uses:
integers, escape-free strings, booleans, `null`, arrays and objects.
`JsonList` / `JsonMems` unfold the nested lists so that mutual structural
recursion is available. -/

mutual
inductive Json where
  | null : Json
  | bool (b : Bool) : Json
  | num (n : Int) : Json
  | str (s : List Char) : Json
  | arr (elems : JsonList) : Json
  | obj (mems : JsonMems) : Json
  deriving DecidableEq
inductive JsonList where
  | nil : JsonList
  | cons (hd : Json) (tl : JsonList) : JsonList
  deriving DecidableEq
inductive JsonMems where
  | nil : JsonMems
  | cons (key : List Char) (val : Json) (tl : JsonMems) : JsonMems
  deriving DecidableEq
end

/-! ## Decimal digits -/

/-- The decimal digit characters. -/
def digitChar : Nat → Char
  | 0 => '0' | 1 => '1' | 2 => '2' | 3 => '3' | 4 => '4'
  | 5 => '5' | 6 => '6' | 7 => '7' | 8 => '8' | _ => '9'

/-- `isDigitCh c` holds exactly for `'0'`-`'9'`. -/
def isDigitCh (c : Char) : Bool :=
  48 ≤ c.toNat && c.toNat ≤ 57

/-- Numeric value of a digit character. -/
def charVal (c : Char) : Nat := c.toNat - 48

/-- Fueled decimal printer for naturals (most significant digit first).
`natRepr` supplies sufficient fuel. -/
def natReprAux : Nat → Nat → List Char
  | 0, _ => []
  | fuel + 1, n =>
    if n < 10 then [digitChar n]
    else natReprAux fuel (n / 10) ++ [digitChar (n % 10)]

/-- Decimal representation of a natural number. -/
def natRepr (n : Nat) : List Char := natReprAux (n + 1) n

/-- Value of a digit string, accumulator style (how a JSON scanner reads a
maximal digit run). -/
def digitsValAux : Nat → List Char → Nat
  | acc, [] => acc
  | acc, c :: t => digitsValAux (10 * acc + charVal c) t

/-- Value of a digit string. -/
def digitsVal (l : List Char) : Nat := digitsValAux 0 l

/-! ## Canonical serialization of `Json`

`serJson v` is the canonical (whitespace-free) JSON text denoting `v`; it is
how the well-formed payloads that the claims quantify over are presented to
the normalizer. -/

/-- Characters of the literal `null`. -/
def nullLit : List Char := "null".toList

/-- Characters of the literal `true`. -/
def trueLit : List Char := "true".toList

/-- Characters of the literal `false`. -/
def falseLit : List Char := "false".toList

/-- Decimal representation of an integer. -/
def serInt (n : Int) : List Char :=
  if n < 0 then '-' :: natRepr n.natAbs else natRepr n.toNat

mutual
def serJson : Json → List Char
  | .null => nullLit
  | .bool true => trueLit
  | .bool false => falseLit
  | .num n => serInt n
  | .str s => '"' :: (s ++ ['"'])
  | .arr xs => '[' :: (serElems xs ++ [']'])
  | .obj ms => '\x7b' :: (serMems ms ++ ['\x7d'])
def serElems : JsonList → List Char
  | .nil => []
  | .cons v tl => serJson v ++ serElemsRest tl
def serElemsRest : JsonList → List Char
  | .nil => []
  | .cons v tl => ',' :: (serJson v ++ serElemsRest tl)
def serMems : JsonMems → List Char
  | .nil => []
  | .cons k v tl => ('"' :: (k ++ ('"' :: (':' :: serJson v)))) ++ serMemsRest tl
def serMemsRest : JsonMems → List Char
  | .nil => []
  | .cons k v tl => ',' :: (('"' :: (k ++ ('"' :: (':' :: serJson v)))) ++ serMemsRest tl)
end

/-! ## Well-formedness of payload values

The parser below is faithful to `json.loads` on texts whose strings contain
no quote, no backslash and no control character (the schema's name/qty/
reasoning fields). -/

/-- A string field the JSON fragment can carry verbatim. -/
def strOk (s : List Char) : Bool :=
  s.all fun c => !(c == '"') && !(c == '\\') && decide (32 ≤ c.toNat)

mutual
def wfJson : Json → Bool
  | .null => true
  | .bool _ => true
  | .num _ => true
  | .str s => strOk s
  | .arr xs => wfList xs
  | .obj ms => wfMems ms
def wfList : JsonList → Bool
  | .nil => true
  | .cons v tl => wfJson v && wfList tl
def wfMems : JsonMems → Bool
  | .nil => true
  | .cons k v tl => strOk k && wfJson v && wfMems tl
end

/-! ## `json.loads` (fueled recursive-descent parser)

The parser reports failures the way CPython's `json` module does: an error
phrase together with the character position, from which
`str(JSONDecodeError)` is reconstructed below.  All recursive calls strictly
decrease the fuel, so the definition is structural and computes by kernel
reduction; `parse_json` supplies fuel `length + 1`, which the round-trip
theorems show is sufficient for every serialized value. -/

/-- A `json.JSONDecodeError`: error phrase and character position. -/
abbrev PErr := List Char × Nat

/-- Error phrase `Expecting value`. -/
def msgExpValue : List Char := "Expecting value".toList

/-- Error phrase for a missing delimiter comma
(`Expecting ',' delimiter`; the apostrophes are built explicitly). -/
def msgExpComma : List Char :=
  "Expecting ".toList ++ [Char.ofNat 39, ','] ++ [Char.ofNat 39] ++ " delimiter".toList

/-- Error phrase for a missing colon (`Expecting ':' delimiter`). -/
def msgExpColon : List Char :=
  "Expecting ".toList ++ [Char.ofNat 39, ':'] ++ [Char.ofNat 39] ++ " delimiter".toList

/-- Error phrase `Expecting property name enclosed in double quotes`. -/
def msgExpProp : List Char :=
  "Expecting property name enclosed in double quotes".toList

/-- Error phrase `Unterminated string starting at`. -/
def msgUnterm : List Char := "Unterminated string starting at".toList

/-- Error phrase `Extra data`. -/
def msgExtra : List Char := "Extra data".toList

/-- What the parser is currently reading: a value, the elements of an array
(after `[`), or the members of an object (after `{`). -/
inductive PReq where
  | val : PReq
  | elems : PReq
  | mems : PReq
  deriving DecidableEq

/-- A finished parse: the value / element list / member list read. -/
inductive POut where
  | val (v : Json) : POut
  | elems (xs : JsonList) : POut
  | mems (ms : JsonMems) : POut
  deriving DecidableEq

def parseGo : Nat → PReq → List Char → Nat → Except PErr (POut × List Char × Nat)
  | 0, _, _, pos => .error (msgExpValue, pos)
  | fuel + 1, .val, s, pos =>
    match s with
    | [] => .error (msgExpValue, pos)
    | c :: rest =>
      if isDigitCh c then
        let digs := (c :: rest).takeWhile isDigitCh
        .ok (.val (.num (digitsVal digs : Int)), (c :: rest).drop digs.length,
          pos + digs.length)
      else if c == '-' then
        match rest with
        | d :: _ =>
          if isDigitCh d then
            let digs := rest.takeWhile isDigitCh
            .ok (.val (.num (-(digitsVal digs : Int))), rest.drop digs.length,
              pos + 1 + digs.length)
          else .error (msgExpValue, pos)
        | [] => .error (msgExpValue, pos)
      else if c == '"' then
        let content := rest.takeWhile fun x => !(x == '"')
        match rest.drop content.length with
        | '"' :: r2 => .ok (.val (.str content), r2, pos + content.length + 2)
        | _ => .error (msgUnterm, pos)
      else if c == '[' then
        match rest with
        | ']' :: r2 => .ok (.val (.arr .nil), r2, pos + 2)
        | _ =>
          match parseGo fuel .elems rest (pos + 1) with
          | .ok (.elems xs, r2, p2) => .ok (.val (.arr xs), r2, p2)
          | .ok (out, r2, p2) => .ok (out, r2, p2)
          | .error e => .error e
      else if c == '\x7b' then
        match rest with
        | '\x7d' :: r2 => .ok (.val (.obj .nil), r2, pos + 2)
        | _ =>
          match parseGo fuel .mems rest (pos + 1) with
          | .ok (.mems ms, r2, p2) => .ok (.val (.obj ms), r2, p2)
          | .ok (out, r2, p2) => .ok (out, r2, p2)
          | .error e => .error e
      else if c == 'n' then
        match rest with
        | 'u' :: 'l' :: 'l' :: r2 => .ok (.val .null, r2, pos + 4)
        | _ => .error (msgExpValue, pos)
      else if c == 't' then
        match rest with
        | 'r' :: 'u' :: 'e' :: r2 => .ok (.val (.bool true), r2, pos + 4)
        | _ => .error (msgExpValue, pos)
      else if c == 'f' then
        match rest with
        | 'a' :: 'l' :: 's' :: 'e' :: r2 => .ok (.val (.bool false), r2, pos + 5)
        | _ => .error (msgExpValue, pos)
      else .error (msgExpValue, pos)
  | fuel + 1, .elems, s, pos =>
    match parseGo fuel .val s pos with
    | .error e => .error e
    | .ok (.val v, r, p) =>
      match r with
      | ']' :: r2 => .ok (.elems (.cons v .nil), r2, p + 1)
      | ',' :: r2 =>
        match parseGo fuel .elems r2 (p + 1) with
        | .ok (.elems tl, r3, p3) => .ok (.elems (.cons v tl), r3, p3)
        | .ok (out, r3, p3) => .ok (out, r3, p3)
        | .error e => .error e
      | _ => .error (msgExpComma, p)
    | .ok (out, r, p) => .ok (out, r, p)
  | fuel + 1, .mems, s, pos =>
    match s with
    | '"' :: rest =>
      let key := rest.takeWhile fun x => !(x == '"')
      match rest.drop key.length with
      | '"' :: r2 =>
        match r2 with
        | ':' :: r3 =>
          match parseGo fuel .val r3 (pos + key.length + 3) with
          | .error e => .error e
          | .ok (.val v, r4, p4) =>
            match r4 with
            | '\x7d' :: r5 => .ok (.mems (.cons key v .nil), r5, p4 + 1)
            | ',' :: r5 =>
              match parseGo fuel .mems r5 (p4 + 1) with
              | .ok (.mems tl, r6, p6) => .ok (.mems (.cons key v tl), r6, p6)
              | .ok (out, r6, p6) => .ok (out, r6, p6)
              | .error e => .error e
            | _ => .error (msgExpComma, p4)
          | .ok (out, r4, p4) => .ok (out, r4, p4)
        | _ => .error (msgExpColon, pos + key.length + 2)
      | _ => .error (msgUnterm, pos)
    | _ => .error (msgExpProp, pos)

/-- `json.loads` on the fragment: parse one value and require the input to be
exhausted (`Extra data` otherwise, as in CPython). -/
def parse_json (s : List Char) : Except PErr Json :=
  match parseGo (s.length + 1) .val s 0 with
  | .error e => .error e
  | .ok (.val v, [], _) => .ok v
  | .ok (.val _, _ :: _, p) => .error (msgExtra, p)
  | .ok (_, _, p) => .error (msgExpValue, p)

/-- 1-based line number of a character position, as
`json.JSONDecodeError` computes it. -/
def lineAt (doc : List Char) (pos : Nat) : Nat :=
  (doc.take pos).count '\n' + 1

/-- 1-based column number of a character position, as
`json.JSONDecodeError` computes it. -/
def colAt (doc : List Char) (pos : Nat) : Nat :=
  match (doc.take pos).reverse.findIdx? (fun c => c == '\n') with
  | some k => k + 1
  | none => pos + 1

/-- `str(e)` for a `json.JSONDecodeError` `e`:
`"<msg>: line <l> column <c> (char <p>)"`.  Note it carries only the phrase
and positions, never the document text. -/
def jsonErrStr (doc : List Char) (e : PErr) : List Char :=
  e.1 ++ ": line ".toList ++ natRepr (lineAt doc e.2) ++ " column ".toList ++
    natRepr (colAt doc e.2) ++ " (char ".toList ++ natRepr e.2 ++ ")".toList

/-- The response normalizer (app.py lines 83-85): strip fence markers and
surrounding whitespace, then `json.loads`. -/
def normalize_response (raw : List Char) : Except PErr Json :=
  parse_json (clean_json raw)

/-! ## Session state and meal logging (app.py lines 30-33, 159-162, 169-214) -/

/-- The four accumulators of `st.session_state.daily_stats` (line 33). -/
structure Stats where
  cals : Int
  prot : Int
  carbs : Int
  fats : Int
  deriving DecidableEq

/-- `st.session_state`: the meal history list and the running stats. -/
structure SessionState where
  daily_log : List Json
  daily_stats : Stats
  deriving DecidableEq

/-- The stats value installed at lines 33 and 161. -/
def init_stats : Stats := ⟨0, 0, 0, 0⟩

/-- The session state created at lines 30-33 (and restored at 159-162). -/
def init_state : SessionState := ⟨[], init_stats⟩

/-- Python dict lookup semantics on a parsed JSON object: with duplicate
keys, `json.loads` keeps the last occurrence, so lookup scans the tail
first. -/
def lookupLast : JsonMems → List Char → Option Json
  | .nil, _ => none
  | .cons k' v tl, k =>
    match lookupLast tl k with
    | some r => some r
    | none => if k' = k then some v else none

/-- `meal_data[k]`: indexing a parsed JSON value.  Indexing a non-object
with a string key raises in Python, modelled as `none`. -/
def dict_get (j : Json) (k : List Char) : Option Json :=
  match j with
  | .obj ms => lookupLast ms k
  | _ => none

/-- Read a field as a number for `+=`; any other shape raises (`none`). -/
def pyNum : Option Json → Option Int
  | some (.num n) => some n
  | _ => none

/-- `meal_data.get(k, 0)` followed by `+=`: a missing key contributes `0`;
a present non-numeric value raises (`none`); `.get` on a non-dict raises. -/
def pyNumD (j : Json) (k : List Char) : Option Int :=
  match j with
  | .obj ms =>
    match lookupLast ms k with
    | none => some 0
    | some (.num n) => some n
    | some _ => none
  | _ => none

/-- JSON key `meal_total_cals` (line 181). -/
def key_cals : List Char := "meal_total_cals".toList

/-- JSON key `meal_total_prot` (line 182). -/
def key_prot : List Char := "meal_total_prot".toList

/-- JSON key `meal_total_carbs` (line 183). -/
def key_carbs : List Char := "meal_total_carbs".toList

/-- JSON key `meal_total_fats` (line 184). -/
def key_fats : List Char := "meal_total_fats".toList

/-- app.py lines 180-184, statement by statement: append the meal to the
log, then add each total into the stats.  A raise (missing required key or
non-numeric value) aborts mid-way, leaving the updates made so far; the
Boolean records whether the block raised. -/
def log_meal (s : SessionState) (meal : Json) : SessionState × Bool :=
  let log' := s.daily_log ++ [meal]
  match pyNum (dict_get meal key_cals) with
  | none => (⟨log', s.daily_stats⟩, true)
  | some c =>
    let st1 : Stats := ⟨s.daily_stats.cals + c, s.daily_stats.prot,
      s.daily_stats.carbs, s.daily_stats.fats⟩
    match pyNum (dict_get meal key_prot) with
    | none => (⟨log', st1⟩, true)
    | some p =>
      let st2 : Stats := ⟨st1.cals, st1.prot + p, st1.carbs, st1.fats⟩
      match pyNumD meal key_carbs with
      | none => (⟨log', st2⟩, true)
      | some cb =>
        let st3 : Stats := ⟨st2.cals, st2.prot, st2.carbs + cb, st2.fats⟩
        match pyNumD meal key_fats with
        | none => (⟨log', st3⟩, true)
        | some ft => (⟨log', ⟨st3.cals, st3.prot, st3.carbs, st3.fats + ft⟩⟩, false)

/-- Python truthiness of a parsed JSON value (`if meal_data:` at line 178):
`None` is handled separately; `False`, `0`, `""`, `[]`, `{}` are falsy. -/
def json_truthy : Json → Bool
  | .null => false
  | .bool b => b
  | .num n => !(n == 0)
  | .str s => !s.isEmpty
  | .arr xs => !(xs == .nil)
  | .obj ms => !(ms == .nil)

/-! ## Agent 1, the analyst (app.py lines 49-88) -/

/-- Observable behaviour of one run of `agent_analyst`: the returned value
(`None` on failure), how many times `generate_content` was invoked, how many
times `time.sleep` was invoked, and the `st.error` messages displayed. -/
structure AgentTrace where
  result : Option Json
  calls : Nat
  sleeps : Nat
  errors : List (List Char)
  deriving DecidableEq

/-- Prefix of the `st.error` message at line 87 (`f"Agent Analyst Error: {e}"`). -/
def agent_err_msg : List Char := "Agent Analyst Error: ".toList

/-- app.py lines 80-88.  `oracle i` is the outcome of the `i`-th call to
`model.generate_content` (`.error e` models a raised exception whose `str`
is `e`; `.ok raw` models a response with `response.text = raw`).  The body
makes a single call inside one `try`; on any exception it shows the error
and returns `None`; otherwise it cleans and parses the text, a
`json.JSONDecodeError` being caught by the same handler. -/
def agent_analyst (oracle : Nat → Except (List Char) (List Char)) : AgentTrace :=
  match oracle 0 with
  | .error e => ⟨none, 1, 0, [agent_err_msg ++ e]⟩
  | .ok raw =>
    match parse_json (clean_json raw) with
    | .ok v => ⟨some v, 1, 0, []⟩
    | .error pe => ⟨none, 1, 0, [agent_err_msg ++ jsonErrStr (clean_json raw) pe]⟩

/-! ## Tool: search_food_db (app.py lines 37-43) -/

/-- One DDGS search result (only the `body` snippet is used). -/
structure SearchResult where
  body : List Char

/-- Fallback returned from the `except` branch at line 43. -/
def offline_msg : List Char := "Offline Mode: Using internal knowledge base.".toList

/-- Fallback returned when the result list is empty (line 41). -/
def no_data_msg : List Char := "No specific data found.".toList

/-- The text appended to the query in the f-string at line 40. -/
def search_suffix : List Char :=
  " cooked indian food nutritional value protein calories 100g".toList

/-- app.py lines 37-43.  `fetch` models `DDGS().text(...)`: it either raises
(`.error`) or returns the result list.  The function never raises: an
exception yields `offline_msg`, an empty result list yields `no_data_msg`,
otherwise the first result's body is returned. -/
def search_food_db (fetch : List Char → Except (List Char) (List SearchResult))
    (query : List Char) : List Char :=
  match fetch (query ++ search_suffix) with
  | .error _ => offline_msg
  | .ok [] => no_data_msg
  | .ok (r :: _) => r.body

/-! ## Button handlers (app.py lines 159-162 and 169-214) -/

/-- The `Reset Daily Log` handler (lines 159-162): unconditionally restore
the empty log and zero stats. -/
def reset_handler (_s : SessionState) : SessionState := init_state

/-- How a run of the `Analyze & Log Meal` handler ended. -/
inductive Outcome where
  | ok : Outcome
  | invalidInput : Outcome
  | analysisFailed : Outcome
  | raised : Outcome
  deriving DecidableEq

/-- Observable behaviour of one click of `Analyze & Log Meal`. -/
structure RunResult where
  state : SessionState
  genCalls : Nat
  sleeps : Nat
  coachCalls : Nat
  messages : List (List Char)
  outcome : Outcome
  deriving DecidableEq

/-- The `st.error` message at line 171. -/
def warn_msg : List Char := "⚠️ Please provide text or an image.".toList

/-- The `st.error` message at line 214. -/
def fail_msg : List Char := "Analysis failed. Please try again.".toList

/-- app.py lines 169-214.  `user_text` is the text area's string (empty
string is falsy), `user_image` the optional upload.  On empty input the
request is rejected before `agent_analyst` runs.  Otherwise the analyst runs
once; a truthy parsed meal is logged (lines 180-184) and, if that block did
not raise, `agent_coach` is called once; a `None` (or falsy) result shows
the failure message and leaves the session untouched. -/
def analyze_handler (s : SessionState) (user_text : List Char)
    (user_image : Option Unit)
    (oracle : Nat → Except (List Char) (List Char)) : RunResult :=
  if user_text = [] ∧ user_image = none then
    ⟨s, 0, 0, 0, [warn_msg], .invalidInput⟩
  else
    let t := agent_analyst oracle
    match t.result with
    | some meal =>
      if json_truthy meal then
        match log_meal s meal with
        | (s', false) => ⟨s', t.calls, t.sleeps, 1, t.errors, .ok⟩
        | (s', true) => ⟨s', t.calls, t.sleeps, 0, t.errors, .raised⟩
      else ⟨s, t.calls, t.sleeps, 0, t.errors ++ [fail_msg], .analysisFailed⟩
    | none => ⟨s, t.calls, t.sleeps, 0, t.errors ++ [fail_msg], .analysisFailed⟩

/-! ## Meal totals and session accumulation (claims about lines 180-184) -/

/-- The four totals a meal contributes at lines 181-184: calories and
protein are read unconditionally, carbs and fats through `.get(key, 0)`
(absent, hence `none`, contributes zero). -/
structure MealTotals where
  cals : Int
  prot : Int
  carbs : Option Int
  fats : Option Int
  deriving DecidableEq

/-- Lines 181-184 at the level of totals: add a meal's contribution into the
running stats. -/
def addMeal (s : Stats) (m : MealTotals) : Stats :=
  ⟨s.cals + m.cals, s.prot + m.prot,
    s.carbs + m.carbs.getD 0, s.fats + m.fats.getD 0⟩

/-- Accumulate a sequence of meals, in order, into the stats. -/
def accumulate (s : Stats) (ms : List MealTotals) : Stats :=
  ms.foldl addMeal s

/-! ## Auxiliary predicates and concrete instances used by the theorems -/

/-- `headFree p r` holds when `r` does not start with a `p`-character (so a
`takeWhile p` scan stops immediately at `r`). -/
def headFree (p : Char → Bool) : List Char → Bool
  | [] => true
  | c :: _ => !(p c)

/-- The characters that can start a serialized JSON value. -/
def isValStart (c : Char) : Bool :=
  isDigitCh c || c == '-' || c == '"' || c == '[' || c == '\x7b' ||
    c == 'n' || c == 't' || c == 'f'

/-- Round-trip property of the parser at request `.val` for a given fuel. -/
def RtVal (fuel : Nat) : Prop :=
  ∀ v r pos, wfJson v = true → headFree isDigitCh r = true →
    (serJson v).length < fuel →
    parseGo fuel .val (serJson v ++ r) pos =
      .ok (.val v, r, pos + (serJson v).length)

/-- Round-trip property of the parser at request `.elems` for a given fuel
(the input is the serialized elements followed by the closing bracket). -/
def RtElems (fuel : Nat) : Prop :=
  ∀ v tl r pos, wfJson v = true → wfList tl = true →
    (serJson v).length + (serElemsRest tl).length + 1 < fuel →
    parseGo fuel .elems (serJson v ++ (serElemsRest tl ++ (']' :: r))) pos =
      .ok (.elems (.cons v tl), r,
        pos + (serJson v).length + (serElemsRest tl).length + 1)

/-- Round-trip property of the parser at request `.mems` for a given fuel
(the input is the serialized members followed by the closing brace). -/
def RtMems (fuel : Nat) : Prop :=
  ∀ k v tl r pos, strOk k = true → wfJson v = true → wfMems tl = true →
    k.length + (serJson v).length + (serMemsRest tl).length + 4 < fuel →
    parseGo fuel .mems
      ('"' :: (k ++ ('"' :: (':' :: (serJson v ++ (serMemsRest tl ++ ('\x7d' :: r))))))) pos =
      .ok (.mems (.cons k v tl), r,
        pos + k.length + (serJson v).length + (serMemsRest tl).length + 4)

/-- Model output whose interior contains a fence marker inside a JSON string
field: a valid, schema-shaped payload that the fence-stripping step corrupts. -/
def c4raw : List Char :=
  "\x7b\"foods\":[],\"meal_total_cals\":1,\"meal_total_prot\":2,\"meal_total_carbs\":3,\"meal_total_fats\":4,\"reasoning\":\"a```b\"\x7d".toList

/-- The mapping actually denoted by `c4raw`. -/
def c4val : Json :=
  .obj (.cons ("foods".toList) (.arr .nil)
    (.cons key_cals (.num 1)
      (.cons key_prot (.num 2)
        (.cons key_carbs (.num 3)
          (.cons key_fats (.num 4)
            (.cons ("reasoning".toList) (.str ("a```b".toList)) .nil))))))

/-- What the normalizer returns for `c4raw`: the reasoning string has lost
its fence marker. -/
def c4bad : Json :=
  .obj (.cons ("foods".toList) (.arr .nil)
    (.cons key_cals (.num 1)
      (.cons key_prot (.num 2)
        (.cons key_carbs (.num 3)
          (.cons key_fats (.num 4)
            (.cons ("reasoning".toList) (.str ("ab".toList)) .nil))))))

/-- Clean JSON text with an interior fence marker but no leading or trailing
marker and no surrounding whitespace. -/
def c3raw : List Char := "\x7b\"a\":\"b```c\"\x7d".toList

/-- Valid JSON text with no fence marker at all, but leading whitespace. -/
def c3ws : List Char := " \x7b\x7d".toList

/-- Model output that is not JSON at all. -/
def c7raw : List Char := "not json".toList

/-- A `generate_content` oracle that always raises. -/
def oracle_fail : Nat → Except (List Char) (List Char) :=
  fun _ => .error ("boom".toList)

/-- A `generate_content` oracle that raises on the first attempt and would
return a valid payload on a second attempt. -/
def oracle_fail_then_ok : Nat → Except (List Char) (List Char) :=
  fun i => if i = 0 then .error ("boom".toList) else .ok ("1".toList)

/-- A DDGS oracle that always raises. -/
def fetch_fail : List Char → Except (List Char) (List SearchResult) :=
  fun _ => .error ("x".toList)

/-! ## Basic lemmas: digits, scanning, replacement, stripping -/

theorem digitChar_isDigit (d : Nat) : isDigitCh (digitChar d) = true := by
  unfold digitChar
  split <;> decide

theorem charVal_digitChar (d : Nat) (h : d < 10) : charVal (digitChar d) = d := by
  interval_cases d <;> decide

theorem digitsValAux_append (c : Char) :
    ∀ l acc, digitsValAux acc (l ++ [c]) = 10 * digitsValAux acc l + charVal c := by
  intro l
  induction l with
  | nil => intro acc; rfl
  | cons d t ih => intro acc; exact ih (10 * acc + charVal d)

theorem natReprAux_spec : ∀ fuel n, n < fuel →
    natReprAux fuel n ≠ [] ∧ (natReprAux fuel n).all isDigitCh = true ∧
      ∀ acc, digitsValAux acc (natReprAux fuel n) =
        acc * 10 ^ (natReprAux fuel n).length + n := by
  intro fuel
  induction fuel with
  | zero => omega
  | succ f ih =>
    intro n hn
    by_cases h10 : n < 10
    · have heq : natReprAux (f + 1) n = [digitChar n] := by
        simp [natReprAux, h10]
      refine ⟨by simp [heq], by simp [heq, digitChar_isDigit], ?_⟩
      intro acc
      have hstep : digitsValAux acc [digitChar n] = 10 * acc + charVal (digitChar n) := rfl
      rw [heq, hstep, charVal_digitChar n h10]
      simp
      omega
    · have hdiv : n / 10 < f := by omega
      obtain ⟨hne, hall, hval⟩ := ih (n / 10) hdiv
      have heq : natReprAux (f + 1) n =
          natReprAux f (n / 10) ++ [digitChar (n % 10)] := by
        simp [natReprAux, h10]
      refine ⟨by simp [heq], ?_, ?_⟩
      · simp [heq, List.all_append, hall, digitChar_isDigit]
      · intro acc
        rw [heq, digitsValAux_append, hval acc,
          charVal_digitChar (n % 10) (by omega)]
        simp [List.length_append, pow_succ]
        ring_nf
        omega

theorem natRepr_ne_nil (n : Nat) : natRepr n ≠ [] :=
  (natReprAux_spec (n + 1) n (by omega)).1

theorem natRepr_all_digits (n : Nat) : (natRepr n).all isDigitCh = true :=
  (natReprAux_spec (n + 1) n (by omega)).2.1

theorem digitsVal_natRepr (n : Nat) : digitsVal (natRepr n) = n := by
  have := (natReprAux_spec (n + 1) n (by omega)).2.2 0
  simpa [digitsVal, natRepr] using this

theorem takeWhile_append_of_all (p : Char → Bool) :
    ∀ l r, l.all p = true → headFree p r = true → (l ++ r).takeWhile p = l := by
  intro l
  induction l with
  | nil =>
    intro r _ hr
    cases r with
    | nil => rfl
    | cons c t =>
      simp only [headFree, Bool.not_eq_true'] at hr
      simp [List.takeWhile, hr]
  | cons c t ih =>
    intro r hall hr
    simp only [List.all_cons, Bool.and_eq_true] at hall
    simp [List.takeWhile, hall.1, ih r hall.2 hr]

theorem dropWhile_of_headFree (p : Char → Bool) (s : List Char)
    (h : headFree p s = true) : s.dropWhile p = s := by
  cases s with
  | nil => rfl
  | cons c t =>
    simp only [headFree, Bool.not_eq_true'] at h
    simp [List.dropWhile, h]

theorem py_strip_of_headFree (s : List Char)
    (h1 : headFree isPySpace s = true) (h2 : headFree isPySpace s.reverse = true) :
    py_strip s = s := by
  unfold py_strip
  rw [dropWhile_of_headFree _ _ h1, dropWhile_of_headFree _ _ h2,
    List.reverse_reverse]

theorem substrOccurs_cons (c : Char) (t pat : List Char)
    (h : substrOccurs (c :: t) pat = false) :
    pat.isPrefixOf (c :: t) = false ∧ substrOccurs t pat = false := by
  simpa [substrOccurs] using h

theorem listReplaceAux_of_no_occur (pat : List Char) :
    ∀ fuel s, substrOccurs s pat = false → listReplaceAux pat fuel s = s := by
  intro fuel
  induction fuel with
  | zero => intro s _; rfl
  | succ f ih =>
    intro s hs
    cases s with
    | nil => rfl
    | cons c t =>
      obtain ⟨h1, h2⟩ := substrOccurs_cons c t pat hs
      simp [listReplaceAux, h1, ih t h2]

theorem listReplace_of_no_occur (pat s : List Char)
    (h : substrOccurs s pat = false) : listReplace pat s = s :=
  listReplaceAux_of_no_occur pat s.length s h

theorem clean_json_no_op (s : List Char)
    (hj : substrOccurs s fence_json = false) (ht : substrOccurs s fence_tick = false)
    (h1 : headFree isPySpace s = true) (h2 : headFree isPySpace s.reverse = true) :
    clean_json s = s := by
  unfold clean_json
  rw [listReplace_of_no_occur _ _ hj, listReplace_of_no_occur _ _ ht,
    py_strip_of_headFree _ h1 h2]

/-! ## Shape of serialized values -/

theorem strOk_all_noquote (s : List Char) (h : strOk s = true) :
    s.all (fun x => !(x == '"')) = true := by
  simp only [strOk, List.all_eq_true, Bool.and_eq_true] at h ⊢
  intro c hc
  exact (h c hc).1.1

theorem isDigitCh_char_facts (c : Char) (h : isDigitCh c = true) :
    c ≠ ']' ∧ c ≠ '\x7d' ∧ isPySpace c = false := by
  refine ⟨?_, ?_, ?_⟩
  · rintro rfl; exact absurd h (by decide)
  · rintro rfl; exact absurd h (by decide)
  · cases hc : isPySpace c
    · rfl
    · exfalso
      simp only [isPySpace, Bool.or_eq_true, beq_iff_eq] at hc
      rcases hc with ((((rfl | rfl) | rfl) | rfl) | rfl) | rfl <;>
        exact absurd h (by decide)

theorem valStart_facts (c : Char) (h : isValStart c = true) :
    c ≠ ']' ∧ c ≠ '\x7d' ∧ isPySpace c = false := by
  simp only [isValStart, Bool.or_eq_true, beq_iff_eq] at h
  rcases h with ((((((h | rfl) | rfl) | rfl) | rfl) | rfl) | rfl) | rfl
  · exact isDigitCh_char_facts c h
  all_goals exact ⟨by decide, by decide, by decide⟩

theorem serJson_head (v : Json) :
    ∃ c t, serJson v = c :: t ∧ isValStart c = true := by
  cases v with
  | null => exact ⟨'n', ['u', 'l', 'l'], rfl, by decide⟩
  | bool b =>
    cases b with
    | true => exact ⟨'t', ['r', 'u', 'e'], rfl, by decide⟩
    | false => exact ⟨'f', ['a', 'l', 's', 'e'], rfl, by decide⟩
  | num n =>
    by_cases hn : n < 0
    · exact ⟨'-', natRepr n.natAbs, by simp [serJson, serInt, hn], by decide⟩
    · obtain ⟨d, ds, hds⟩ := List.exists_cons_of_ne_nil (natRepr_ne_nil n.toNat)
      have hd : isDigitCh d = true := by
        have hall := natRepr_all_digits n.toNat
        rw [hds, List.all_cons, Bool.and_eq_true] at hall
        exact hall.1
      exact ⟨d, ds, by simp [serJson, serInt, hn, hds], by simp [isValStart, hd]⟩
  | str s => exact ⟨'"', s ++ ['"'], rfl, by decide⟩
  | arr xs => exact ⟨'[', serElems xs ++ [']'], rfl, by decide⟩
  | obj ms => exact ⟨'\x7b', serMems ms ++ ['\x7d'], rfl, by decide⟩

theorem serJson_length_pos (v : Json) : 1 ≤ (serJson v).length := by
  obtain ⟨c, t, hct, _⟩ := serJson_head v
  simp [hct]

theorem natRepr_rev_head (m : Nat) :
    ∃ c t, (natRepr m).reverse = c :: t ∧ isDigitCh c = true := by
  have hne : (natRepr m).reverse ≠ [] := by
    simpa using natRepr_ne_nil m
  obtain ⟨c, t, hct⟩ := List.exists_cons_of_ne_nil hne
  have hmem : c ∈ natRepr m := by
    have : c ∈ (natRepr m).reverse := by rw [hct]; exact List.mem_cons_self c t
    simpa using this
  have hall := natRepr_all_digits m
  rw [List.all_eq_true] at hall
  exact ⟨c, t, hct, hall c hmem⟩

theorem serJson_rev_head (v : Json) :
    ∃ c t, (serJson v).reverse = c :: t ∧ isPySpace c = false := by
  cases v with
  | null => exact ⟨'l', ['l', 'u', 'n'], by decide, by decide⟩
  | bool b =>
    cases b with
    | true => exact ⟨'e', ['u', 'r', 't'], by decide, by decide⟩
    | false => exact ⟨'e', ['s', 'l', 'a', 'f'], by decide, by decide⟩
  | num n =>
    by_cases hn : n < 0
    · obtain ⟨c, t, hct, hc⟩ := natRepr_rev_head n.natAbs
      refine ⟨c, t ++ ['-'], ?_, (isDigitCh_char_facts c hc).2.2⟩
      simp [serJson, serInt, hn, hct]
    · obtain ⟨c, t, hct, hc⟩ := natRepr_rev_head n.toNat
      exact ⟨c, t, by simp [serJson, serInt, hn, hct], (isDigitCh_char_facts c hc).2.2⟩
  | str s =>
    exact ⟨'"', s.reverse ++ ['"'], by simp [serJson], by decide⟩
  | arr xs =>
    exact ⟨']', (serElems xs).reverse ++ ['['], by simp [serJson], by decide⟩
  | obj ms =>
    exact ⟨'\x7d', (serMems ms).reverse ++ ['\x7b'], by simp [serJson], by decide⟩

theorem serJson_headFree_space (v : Json) :
    headFree isPySpace (serJson v) = true := by
  obtain ⟨c, t, hct, hstart⟩ := serJson_head v
  rw [hct]
  simp [headFree, (valStart_facts c hstart).2.2]

theorem serJson_rev_headFree_space (v : Json) :
    headFree isPySpace (serJson v).reverse = true := by
  obtain ⟨c, t, hct, hc⟩ := serJson_rev_head v
  rw [hct]
  simp [headFree, hc]

/-! ## The parser inverts the serializer (round-trip fidelity) -/

theorem rt_all : ∀ fuel, RtVal fuel ∧ RtElems fuel ∧ RtMems fuel := by
  intro fuel
  induction fuel with
  | zero =>
    refine ⟨?_, ?_, ?_⟩
    · intro v r pos _ _ h; omega
    · intro v tl r pos _ _ h; omega
    · intro k v tl r pos _ _ _ h; omega
  | succ f ih =>
    obtain ⟨ihV, ihE, ihM⟩ := ih
    refine ⟨?_, ?_, ?_⟩
    · -- RtVal (f + 1)
      intro v r pos hwf hfree hlen
      cases v with
      | null => rfl
      | bool b => cases b <;> rfl
      | num n =>
        by_cases hn : n < 0
        · have hser : serJson (.num n) = '-' :: natRepr n.natAbs := by
            simp [serJson, serInt, hn]
          obtain ⟨d, ds, hds⟩ := List.exists_cons_of_ne_nil (natRepr_ne_nil n.natAbs)
          have hall : (d :: ds).all isDigitCh = true := by
            rw [← hds]; exact natRepr_all_digits _
          have hd : isDigitCh d = true := by
            rw [List.all_cons, Bool.and_eq_true] at hall
            exact hall.1
          have hall2 : (d :: ds).all isDigitCh = true := by
            rw [← hds]; exact natRepr_all_digits _
          have htw : List.takeWhile isDigitCh (d :: (ds ++ r)) = d :: ds := by
            rw [← List.cons_append]
            exact takeWhile_append_of_all isDigitCh (d :: ds) r hall2 hfree
          have hdrop : List.drop (d :: ds).length (d :: (ds ++ r)) = r := by
            rw [← List.cons_append]
            exact List.drop_left _ _
          have hdv : (digitsVal (d :: ds) : Int) = (n.natAbs : Int) := by
            rw [← hds, digitsVal_natRepr]
          have hneg : -((n.natAbs : Int)) = n := by omega
          have hvnum : Json.num (-((digitsVal (d :: ds) : Int))) = Json.num n := by
            rw [hdv, hneg]
          have e1 : isDigitCh '-' = false := by decide
          have e2 : ('-' == '-') = true := by decide
          rw [hser, hds]
          simp only [List.cons_append]
          simp only [parseGo]
          simp [e1, e2, hd, htw, hdrop, hvnum] <;> omega
        · have hser : serJson (.num n) = natRepr n.toNat := by
            simp [serJson, serInt, hn]
          obtain ⟨d, ds, hds⟩ := List.exists_cons_of_ne_nil (natRepr_ne_nil n.toNat)
          have hall : (d :: ds).all isDigitCh = true := by
            rw [← hds]; exact natRepr_all_digits _
          have hd : isDigitCh d = true := by
            have hall3 := hall
            rw [List.all_cons, Bool.and_eq_true] at hall3
            exact hall3.1
          have htw : List.takeWhile isDigitCh (d :: (ds ++ r)) = d :: ds := by
            rw [← List.cons_append]
            exact takeWhile_append_of_all isDigitCh (d :: ds) r hall hfree
          have hdrop : List.drop (d :: ds).length (d :: (ds ++ r)) = r := by
            rw [← List.cons_append]
            exact List.drop_left _ _
          have hdv : (digitsVal (d :: ds) : Int) = (n.toNat : Int) := by
            rw [← hds, digitsVal_natRepr]
          have hpos : ((n.toNat : Int)) = n := by omega
          have hvnum : Json.num ((digitsVal (d :: ds) : Int)) = Json.num n := by
            rw [hdv, hpos]
          rw [hser, hds]
          simp only [List.cons_append]
          simp only [parseGo]
          simp [hd, htw, hdrop, hvnum] <;> omega
      | str s =>
        have hall : s.all (fun x => !(x == '"')) = true :=
          strOk_all_noquote s (by simpa [wfJson] using hwf)
        have hshape : serJson (.str s) ++ r = '"' :: (s ++ ('"' :: r)) := by
          simp [serJson]
        have htw : List.takeWhile (fun x => !(x == '"')) (s ++ ('"' :: r)) = s :=
          takeWhile_append_of_all _ s ('"' :: r) hall (by rfl)
        have hdrop : List.drop s.length (s ++ ('"' :: r)) = '"' :: r :=
          List.drop_left _ _
        have hlenEq : (serJson (.str s)).length = s.length + 2 := by
          simp [serJson]
        have e1 : isDigitCh '"' = false := by decide
        rw [hshape, hlenEq]
        simp only [parseGo]
        simp [e1, htw, hdrop] <;> omega
      | arr xs =>
        cases xs with
        | nil => rfl
        | cons v1 tl =>
          have hwf2 : wfJson v1 = true ∧ wfList tl = true := by
            simpa [wfJson, wfList, Bool.and_eq_true] using hwf
          have hshape : serJson (.arr (.cons v1 tl)) ++ r =
              '[' :: (serJson v1 ++ (serElemsRest tl ++ (']' :: r))) := by
            simp [serJson, serElems]
          have hlenEq : (serJson (.arr (.cons v1 tl))).length =
              (serJson v1).length + (serElemsRest tl).length + 2 := by
            simp [serJson, serElems]
            omega
          rw [hlenEq] at hlen
          rw [hshape, hlenEq]
          simp only [parseGo]
          rw [if_neg (by decide), if_neg (by decide), if_neg (by decide),
            if_pos (by decide)]
          split
          · rename_i r2 heq
            exfalso
            obtain ⟨c0, t0, hc0, hstart⟩ := serJson_head v1
            rw [hc0, List.cons_append] at heq
            rw [List.cons.injEq] at heq
            exact (valStart_facts c0 hstart).1 heq.1
          · have he := ihE v1 tl r (pos + 1) hwf2.1 hwf2.2 (by omega)
            rw [he]
            simp
            omega
      | obj ms =>
        cases ms with
        | nil => rfl
        | cons k v1 tl =>
          have hwf2 : strOk k = true ∧ wfJson v1 = true ∧ wfMems tl = true := by
            simpa [wfJson, wfMems, Bool.and_eq_true, and_assoc] using hwf
          have hshape : serJson (.obj (.cons k v1 tl)) ++ r =
              '\x7b' :: ('"' :: (k ++ ('"' :: (':' ::
                (serJson v1 ++ (serMemsRest tl ++ ('\x7d' :: r))))))) := by
            simp [serJson, serMems]
          have hlenEq : (serJson (.obj (.cons k v1 tl))).length =
              k.length + (serJson v1).length + (serMemsRest tl).length + 5 := by
            simp [serJson, serMems]
            omega
          rw [hlenEq] at hlen
          rw [hshape, hlenEq]
          simp only [parseGo]
          rw [if_neg (by decide), if_neg (by decide), if_neg (by decide),
            if_neg (by decide), if_pos (by decide)]
          split
          · rename_i r2 heq
            exfalso
            exact absurd heq.symm (by simp)
          · have hm := ihM k v1 tl r (pos + 1) hwf2.1 hwf2.2.1 hwf2.2.2 (by omega)
            rw [hm]
            simp
            omega
    · -- RtElems (f + 1)
      intro v tl r pos hwfv hwtl hlen
      have hfree2 : headFree isDigitCh (serElemsRest tl ++ (']' :: r)) = true := by
        cases tl <;> rfl
      have hsvp := serJson_length_pos v
      have hv := ihV v (serElemsRest tl ++ (']' :: r)) pos hwfv hfree2 (by omega)
      simp only [parseGo]
      rw [hv]
      cases tl with
      | nil =>
        simp [serElemsRest]
      | cons v2 tl2 =>
        have hw2 : wfJson v2 = true ∧ wfList tl2 = true := by
          simpa [wfList, Bool.and_eq_true] using hwtl
        have hrl : (serElemsRest (JsonList.cons v2 tl2)).length =
            (serJson v2).length + (serElemsRest tl2).length + 1 := by
          simp [serElemsRest]
        have he := ihE v2 tl2 r (pos + (serJson v).length + 1) hw2.1 hw2.2
          (by omega)
        simp only [serElemsRest, List.cons_append, List.append_assoc]
        simp
        rw [he]
        simp <;> omega
    · -- RtMems (f + 1)
      intro k v tl r pos hk hwfv hwtl hlen
      have hallk : k.all (fun x => !(x == '"')) = true := strOk_all_noquote k hk
      have htwk : List.takeWhile (fun x => !(x == '"'))
          (k ++ ('"' :: (':' :: (serJson v ++ (serMemsRest tl ++ ('\x7d' :: r)))))) = k :=
        takeWhile_append_of_all _ k _ hallk (by rfl)
      have hdropk : List.drop k.length
          (k ++ ('"' :: (':' :: (serJson v ++ (serMemsRest tl ++ ('\x7d' :: r)))))) =
          '"' :: (':' :: (serJson v ++ (serMemsRest tl ++ ('\x7d' :: r)))) :=
        List.drop_left _ _
      have hfree2 : headFree isDigitCh (serMemsRest tl ++ ('\x7d' :: r)) = true := by
        cases tl <;> rfl
      have hsvp := serJson_length_pos v
      have hv := ihV v (serMemsRest tl ++ ('\x7d' :: r)) (pos + k.length + 3) hwfv
        hfree2 (by omega)
      simp only [parseGo]
      rw [htwk, hdropk]
      simp only [parseGo.match_9.eq_2]
      rw [hv]
      cases tl with
      | nil =>
        simp [serMemsRest]
        omega
      | cons k2 v2 tl2 =>
        have hw2 : strOk k2 = true ∧ wfJson v2 = true ∧ wfMems tl2 = true := by
          simpa [wfMems, Bool.and_eq_true, and_assoc] using hwtl
        have hrl : (serMemsRest (.cons k2 v2 tl2)).length =
            k2.length + (serJson v2).length + (serMemsRest tl2).length + 4 := by
          simp [serMemsRest]
          omega
        rw [hrl] at hlen
        have hm := ihM k2 v2 tl2 r (pos + k.length + 3 + (serJson v).length + 1)
          hw2.1 hw2.2.1 hw2.2.2 (by omega)
        simp only [serMemsRest, List.cons_append, List.append_assoc]
        rw [hm]
        simp <;> omega

theorem parse_json_roundtrip (v : Json) (hwf : wfJson v = true) :
    parse_json (serJson v) = .ok v := by
  have h := (rt_all ((serJson v).length + 1)).1 v [] 0 hwf (by rfl) (by omega)
  rw [List.append_nil] at h
  unfold parse_json
  rw [h]

/-- Fence-stripping does not disturb a serialized payload that contains no
fence marker (its first and last characters are never whitespace). -/
theorem clean_json_serJson (v : Json)
    (hj : substrOccurs (serJson v) fence_json = false)
    (ht : substrOccurs (serJson v) fence_tick = false) :
    clean_json (serJson v) = serJson v :=
  clean_json_no_op _ hj ht (serJson_headFree_space v) (serJson_rev_headFree_space v)

/-! ## Claim theorems -/

/-- C1: for every weight and each of the four goal phases in the fixed menu,
the target calculator is the pure function given by the documented
per-category multipliers: the two Bulk phases use protein multiplier 2.0 and
calorie multiplier 35, the Cut phase 2.4 and 24, and the remaining
(Maintenance) phase 1.8 and 30, with protein truncated to integer grams. -/
theorem C1_target_calculator (w : Nat) :
    calc_targets w menu_lean_bulk = spec_target w 20 35 ∧
    calc_targets w menu_dirty_bulk = spec_target w 20 35 ∧
    calc_targets w menu_cut = spec_target w 24 24 ∧
    calc_targets w menu_maintenance = spec_target w 18 30 :=
  ⟨rfl, rfl, rfl, rfl⟩

/-- C3 counterexample: the cleaning step does not remove only leading and
trailing fence markers — an interior `` ``` `` inside a JSON string is also
removed (first conjunct pair), and text with no fence marker at all is still
changed when it carries surrounding whitespace (second conjunct group), so
the step is not a no-op on all fence-free text. -/
theorem C3_counterexample :
    clean_json c3raw ≠ c3raw ∧
    clean_json c3raw = "\x7b\"a\":\"bc\"\x7d".toList ∧
    substrOccurs c3ws fence_json = false ∧
    substrOccurs c3ws fence_tick = false ∧
    clean_json c3ws ≠ c3ws ∧
    clean_json c3ws = "\x7b\x7d".toList :=
  ⟨by decide, by decide, by decide, by decide, by decide, by decide⟩

/-- C3 (amended): the response normalizer's cleaning step removes every
occurrence of the literal fence markers anywhere in the text and strips
surrounding whitespace; on text containing no occurrence of either marker
and no leading or trailing whitespace it is a no-op. -/
theorem C3_fence_stripping (s : List Char)
    (hj : substrOccurs s fence_json = false)
    (ht : substrOccurs s fence_tick = false)
    (h1 : headFree isPySpace s = true)
    (h2 : headFree isPySpace s.reverse = true) :
    clean_json s = s :=
  clean_json_no_op s hj ht h1 h2

/-- C3 witness: the amended no-op statement at a concrete clean JSON text. -/
theorem C3_witness :
    substrOccurs ("\x7b\"x\":1\x7d".toList) fence_json = false ∧
    substrOccurs ("\x7b\"x\":1\x7d".toList) fence_tick = false ∧
    clean_json ("\x7b\"x\":1\x7d".toList) = "\x7b\"x\":1\x7d".toList :=
  ⟨by decide, by decide,
    C3_fence_stripping _ (by decide) (by decide) (by decide) (by decide)⟩

/-- C5: session accumulation of meal totals is associative and commutative:
folding `[A, B]` then `[C]` equals folding `[A]` then `[B, C]`, and any
permutation of the meal sequence yields the same stats. -/
theorem C5_accumulation (s : Stats) (A B C : MealTotals)
    (l1 l2 : List MealTotals) (hperm : l1.Perm l2) :
    accumulate (accumulate s [A, B]) [C] = accumulate (accumulate s [A]) [B, C] ∧
    accumulate s l1 = accumulate s l2 := by
  have hswap : ∀ (t : Stats) (x y : MealTotals),
      addMeal (addMeal t y) x = addMeal (addMeal t x) y := by
    intro t x y
    simp only [addMeal, Stats.mk.injEq]
    refine ⟨?_, ?_, ?_, ?_⟩ <;> omega
  have main : ∀ (m1 m2 : List MealTotals), m1.Perm m2 →
      ∀ t, accumulate t m1 = accumulate t m2 := by
    intro m1 m2 p
    induction p with
    | nil => intro t; rfl
    | cons x p ih => intro t; exact ih (addMeal t x)
    | swap x y l => intro t; exact congrArg (fun u => List.foldl addMeal u l) (hswap t x y)
    | trans p1 p2 ih1 ih2 => intro t; exact (ih1 t).trans (ih2 t)
  exact ⟨rfl, main l1 l2 hperm s⟩

/-- C5 witness: the accumulation identities at concrete meals, with the
permutation `[A, B] ~ [B, A]`. -/
theorem C5_witness :
    accumulate (accumulate (⟨1, 2, 3, 4⟩ : Stats)
        [(⟨10, 1, some 2, none⟩ : MealTotals), (⟨20, 2, none, some 3⟩ : MealTotals)])
        [(⟨30, 3, some 1, some 1⟩ : MealTotals)] =
      accumulate (accumulate (⟨1, 2, 3, 4⟩ : Stats) [(⟨10, 1, some 2, none⟩ : MealTotals)])
        [(⟨20, 2, none, some 3⟩ : MealTotals), (⟨30, 3, some 1, some 1⟩ : MealTotals)] ∧
    accumulate (⟨1, 2, 3, 4⟩ : Stats)
        [(⟨10, 1, some 2, none⟩ : MealTotals), (⟨20, 2, none, some 3⟩ : MealTotals)] =
      accumulate (⟨1, 2, 3, 4⟩ : Stats)
        [(⟨20, 2, none, some 3⟩ : MealTotals), (⟨10, 1, some 2, none⟩ : MealTotals)] :=
  C5_accumulation (⟨1, 2, 3, 4⟩ : Stats) (⟨10, 1, some 2, none⟩ : MealTotals)
    (⟨20, 2, none, some 3⟩ : MealTotals) (⟨30, 3, some 1, some 1⟩ : MealTotals) _ _
    (List.Perm.swap (⟨20, 2, none, some 3⟩ : MealTotals)
      (⟨10, 1, some 2, none⟩ : MealTotals) [])

/-- C6: the reset handler always restores the initial session state: all
four accumulators are zero and the meal history is empty, whatever the prior
session state was. -/
theorem C6_reset (s : SessionState) :
    reset_handler s = init_state ∧
    (reset_handler s).daily_stats.cals = 0 ∧
    (reset_handler s).daily_stats.prot = 0 ∧
    (reset_handler s).daily_stats.carbs = 0 ∧
    (reset_handler s).daily_stats.fats = 0 ∧
    (reset_handler s).daily_log = [] :=
  ⟨rfl, rfl, rfl, rfl, rfl, rfl⟩

/-- C8: when neither text nor image is provided, the handler rejects the
request with the validation message, makes no model call, never invokes the
coach, and leaves the session state untouched. -/
theorem C8_empty_input_rejected (s : SessionState)
    (oracle : Nat → Except (List Char) (List Char)) :
    analyze_handler s [] none oracle = ⟨s, 0, 0, 0, [warn_msg], .invalidInput⟩ := by
  unfold analyze_handler
  rw [if_pos ⟨rfl, rfl⟩]

/-- C9: the search tool returns the first result's body when results exist,
the fixed no-data string on an empty result list, and on any exception falls
back silently to the fixed offline string — it never raises. -/
theorem C9_search_tool (fetch : List Char → Except (List Char) (List SearchResult))
    (query : List Char) :
    (∀ e, fetch (query ++ search_suffix) = .error e →
      search_food_db fetch query = offline_msg) ∧
    (∀ r rs, fetch (query ++ search_suffix) = .ok (r :: rs) →
      search_food_db fetch query = r.body) ∧
    (fetch (query ++ search_suffix) = .ok [] →
      search_food_db fetch query = no_data_msg) := by
  refine ⟨?_, ?_, ?_⟩
  · intro e h; unfold search_food_db; rw [h]
  · intro r rs h; unfold search_food_db; rw [h]
  · intro h; unfold search_food_db; rw [h]

/-- C9 witness: the silent fallback on a raising search oracle. -/
theorem C9_witness :
    search_food_db fetch_fail ("paneer".toList) = offline_msg :=
  (C9_search_tool fetch_fail ("paneer".toList)).1 ("x".toList) rfl

/-- C2 counterexample: on an oracle that raises on the first attempt and
would succeed on a second, the adapter makes exactly one call — not two —
performs no sleep, and returns `None` rather than a sentinel string, so the
claimed retry loop does not exist. -/
theorem C2_counterexample :
    (agent_analyst oracle_fail_then_ok).calls = 1 ∧
    (agent_analyst oracle_fail_then_ok).calls ≠ 2 ∧
    (agent_analyst oracle_fail_then_ok).sleeps = 0 ∧
    (agent_analyst oracle_fail_then_ok).result = none :=
  ⟨rfl, by decide, rfl, rfl⟩

/-- C2 (amended): the model invocation adapter makes exactly one attempt
with no sleep; on any exception it displays the error message and returns
the `None` sentinel instead of raising. -/
theorem C2_single_attempt (oracle : Nat → Except (List Char) (List Char))
    (e : List Char) (h : oracle 0 = .error e) :
    (agent_analyst oracle).calls = 1 ∧
    (agent_analyst oracle).sleeps = 0 ∧
    (agent_analyst oracle).result = none ∧
    (agent_analyst oracle).errors = [agent_err_msg ++ e] := by
  unfold agent_analyst
  rw [h]
  exact ⟨rfl, rfl, rfl, rfl⟩

/-- C2 witness: the single-attempt behaviour on a persistently raising
oracle. -/
theorem C2_witness :
    (agent_analyst oracle_fail).calls = 1 ∧
    (agent_analyst oracle_fail).sleeps = 0 ∧
    (agent_analyst oracle_fail).result = none ∧
    (agent_analyst oracle_fail).errors = [agent_err_msg ++ "boom".toList] :=
  C2_single_attempt oracle_fail ("boom".toList) rfl

/-- C7 counterexample: on non-JSON model output the pipeline reports the
failure (exception text plus the generic retry message), but no displayed
message contains the raw model text, contradicting the claim that the raw
text is shown for diagnostics. -/
theorem C7_counterexample :
    (analyze_handler init_state ("dal and rice".toList) none
      (fun _ => .ok c7raw)).outcome = .analysisFailed ∧
    (analyze_handler init_state ("dal and rice".toList) none
      (fun _ => .ok c7raw)).messages =
        [agent_err_msg ++ "Expecting value: line 1 column 1 (char 0)".toList, fail_msg] ∧
    ((analyze_handler init_state ("dal and rice".toList) none
      (fun _ => .ok c7raw)).messages.all fun m => !(substrOccurs m c7raw)) = true :=
  ⟨by decide, by decide, by decide⟩

/-- C7 (amended): on every malformed model output the normalizer reports a
parse failure — the adapter returns `None` and displays the decode
exception's message (which carries only the error phrase and position, not
the raw text) — rather than raising, and makes no second model call (no
repair or re-prompting). -/
theorem C7_parse_failure_reported (raw : List Char) (pe : PErr)
    (h : parse_json (clean_json raw) = .error pe) :
    (agent_analyst (fun _ => .ok raw)).result = none ∧
    (agent_analyst (fun _ => .ok raw)).calls = 1 ∧
    (agent_analyst (fun _ => .ok raw)).errors =
      [agent_err_msg ++ jsonErrStr (clean_json raw) pe] := by
  unfold agent_analyst
  simp only [h]
  refine ⟨?_, ?_, ?_⟩ <;> trivial

/-- C7 witness: the failure report on the concrete non-JSON text. -/
theorem C7_witness :
    (agent_analyst (fun _ => .ok c7raw)).result = none ∧
    (agent_analyst (fun _ => .ok c7raw)).calls = 1 ∧
    (agent_analyst (fun _ => .ok c7raw)).errors =
      [agent_err_msg ++ jsonErrStr (clean_json c7raw) (msgExpValue, 0)] :=
  C7_parse_failure_reported c7raw (msgExpValue, 0) rfl

/-- C10: whenever the analyst stage returns the `None` failure sentinel (and
some input was supplied), the handler leaves the session state — log and all
four accumulators — unchanged, never invokes the coach, and only reports the
failure. -/
theorem C10_failed_analysis_atomic (s : SessionState) (txt : List Char)
    (img : Option Unit) (oracle : Nat → Except (List Char) (List Char))
    (hinput : ¬(txt = [] ∧ img = none))
    (hfail : (agent_analyst oracle).result = none) :
    (analyze_handler s txt img oracle).state = s ∧
    (analyze_handler s txt img oracle).coachCalls = 0 ∧
    (analyze_handler s txt img oracle).outcome = .analysisFailed ∧
    (analyze_handler s txt img oracle).messages =
      (agent_analyst oracle).errors ++ [fail_msg] := by
  unfold analyze_handler
  rw [if_neg hinput]
  simp only [hfail]
  refine ⟨?_, ?_, ?_, ?_⟩ <;> trivial

/-- C10 witness: error atomicity on a raising oracle with text provided. -/
theorem C10_witness :
    (analyze_handler init_state ("x".toList) none oracle_fail).state = init_state ∧
    (analyze_handler init_state ("x".toList) none oracle_fail).coachCalls = 0 ∧
    (analyze_handler init_state ("x".toList) none oracle_fail).outcome = .analysisFailed ∧
    (analyze_handler init_state ("x".toList) none oracle_fail).messages =
      (agent_analyst oracle_fail).errors ++ [fail_msg] :=
  C10_failed_analysis_atomic init_state ("x".toList) none oracle_fail
    (by decide) rfl

/-- C4 counterexample: a valid schema-shaped payload whose reasoning string
contains a fence marker parses to `c4val`, but the normalizer (which strips
fence markers before parsing) returns a different mapping, so round-trip
fidelity fails on the code as claimed. -/
theorem C4_counterexample :
    parse_json c4raw = .ok c4val ∧
    normalize_response c4raw = .ok c4bad ∧
    c4bad ≠ c4val :=
  ⟨rfl, rfl, by decide⟩

/-- C4 (amended): for every well-formed payload value whose canonical text
contains no fence marker, the normalizer returns exactly that value
(round-trip fidelity); and a logged meal carrying only the required
calorie/protein totals leaves the carbs and fats accumulators unchanged —
the missing optional fields default to zero instead of raising. -/
theorem C4_normalizer_roundtrip :
    (∀ v, wfJson v = true →
      substrOccurs (serJson v) fence_json = false →
      substrOccurs (serJson v) fence_tick = false →
      normalize_response (serJson v) = .ok v) ∧
    (∀ (st : SessionState) (c p : Int),
      log_meal st (.obj (.cons key_cals (.num c) (.cons key_prot (.num p) .nil))) =
        (⟨st.daily_log ++ [.obj (.cons key_cals (.num c) (.cons key_prot (.num p) .nil))],
          ⟨st.daily_stats.cals + c, st.daily_stats.prot + p,
            st.daily_stats.carbs, st.daily_stats.fats⟩⟩, false)) := by
  constructor
  · intro v hwf hj ht
    unfold normalize_response
    rw [clean_json_serJson v hj ht, parse_json_roundtrip v hwf]
  · intro st c p
    have h : log_meal st
        (.obj (.cons key_cals (.num c) (.cons key_prot (.num p) .nil))) =
        (⟨st.daily_log ++ [.obj (.cons key_cals (.num c) (.cons key_prot (.num p) .nil))],
          ⟨st.daily_stats.cals + c, st.daily_stats.prot + p,
            st.daily_stats.carbs + 0, st.daily_stats.fats + 0⟩⟩, false) := rfl
    rw [h]
    simp

/-- C4 witness: the round-trip on a small payload and the zero-defaulting on
a meal without carbs/fats keys. -/
theorem C4_witness :
    normalize_response (serJson (.obj (.cons ("a".toList) (.num 1) .nil))) =
      .ok (.obj (.cons ("a".toList) (.num 1) .nil)) ∧
    log_meal init_state (.obj (.cons key_cals (.num 5) (.cons key_prot (.num 7) .nil))) =
      (⟨init_state.daily_log ++
          [.obj (.cons key_cals (.num 5) (.cons key_prot (.num 7) .nil))],
        ⟨init_state.daily_stats.cals + 5, init_state.daily_stats.prot + 7,
          init_state.daily_stats.carbs, init_state.daily_stats.fats⟩⟩, false) :=
  ⟨C4_normalizer_roundtrip.1 (.obj (.cons ("a".toList) (.num 1) .nil))
      (by decide) (by decide) (by decide),
    C4_normalizer_roundtrip.2 init_state 5 7⟩
